import Mathlib

/-!
Shallow embedding of `src/main.py` (FastAPI "Katalog Buku" service).

The service keeps two in-memory dicts, `books` and `orders`, keyed by
ids produced by `str(uuid4())`.  We model each dict as a list of records
in insertion order (Python dicts preserve insertion order) and look
entries up by id with `List.find?`; ids are modelled as natural numbers
drawn from a counter `nextId` — `uuid4`'s contract is a fresh, unique
opaque identifier, and a fresh counter is its deterministic shallow
embedding.  Python `int` is `Int`.  A raised `HTTPException` is an
`Except.error` carrying the status code and detail string; pydantic
request-model validation (FastAPI rejects schema violations with
status 422) is an explicit parse step in front of each handler.
-/

namespace KatalogBuku

/-- An `HTTPException(status_code, detail)` raised by a handler, or a
pydantic request-validation failure (status 422). -/
structure HTTPError where
  status_code : Nat
  detail : String
deriving Repr, DecidableEq

/-- An order's `status` field: `"pending"` or `"confirmed"`
(the only two values the code ever stores). -/
inductive OrderStatus
  | pending
  | confirmed
deriving Repr, DecidableEq

/-- A record of the `books` dict: `{id, title, author, stock}`
(`src/main.py` lines 32-37). -/
structure Book where
  id : Nat
  title : String
  author : String
  stock : Int
deriving Repr, DecidableEq

/-- A record of the `orders` dict:
`{id, book_id, qty, customer_name, status}` (`src/main.py` lines 88-94). -/
structure Order where
  id : Nat
  book_id : Nat
  qty : Int
  customer_name : String
  status : OrderStatus
deriving Repr, DecidableEq

/-- The two module-level dicts `books` and `orders` plus the fresh-id
supply modelling `uuid4`. -/
structure AppState where
  books : List Book
  orders : List Order
  nextId : Nat
deriving Repr, DecidableEq

/-- The state at process start: both dicts empty. -/
def initState : AppState := ⟨[], [], 0⟩

/-- `books.get(book_id)`: dict lookup by key. -/
def find_book (s : AppState) (book_id : Nat) : Option Book :=
  s.books.find? (fun b => b.id == book_id)

/-- `orders.get(order_id)`: dict lookup by key. -/
def find_order (s : AppState) (order_id : Nat) : Option Order :=
  s.orders.find? (fun o => o.id == order_id)

/-- In-place mutation of the book dict entry whose key is `b.id`
(Python mutates the dict value object; keys and order are unchanged). -/
def setBook (s : AppState) (b : Book) : AppState :=
  { s with books := s.books.map (fun x => if x.id == b.id then b else x) }

/-- In-place mutation of the order dict entry whose key is `o.id`. -/
def setOrder (s : AppState) (o : Order) : AppState :=
  { s with orders := s.orders.map (fun x => if x.id == o.id then o else x) }

/-! ### Request models (pydantic) -/

/-- Body of `POST /books`: pydantic model `BookCreate`
(`title: min_length=1`, `author: min_length=1`, `stock: ge=0`). -/
structure BookCreate where
  title : String
  author : String
  stock : Int
deriving Repr, DecidableEq

/-- Body of `PATCH /books/{id}/stock`: pydantic model `BookStockUpdate`
(`set_stock: Optional[int], ge=0`; `delta: Optional[int]`, unconstrained). -/
structure BookStockUpdate where
  set_stock : Option Int
  delta : Option Int
deriving Repr, DecidableEq

/-- Body of `POST /orders`: pydantic model `OrderCreate`
(`qty: gt=0`, `customer_name: min_length=1`). -/
structure OrderCreate where
  book_id : Nat
  qty : Int
  customer_name : String
deriving Repr, DecidableEq

/-- FastAPI's response to a request body that violates the pydantic
schema: 422 Unprocessable Entity. -/
def validationError : HTTPError := ⟨422, "Unprocessable Entity"⟩

/-- Pydantic validation of `BookCreate`: `title` and `author` need
`min_length=1`, `stock` needs `ge=0`. -/
def parseBookCreate (p : BookCreate) : Except HTTPError BookCreate :=
  if p.title = "" then .error validationError
  else if p.author = "" then .error validationError
  else if p.stock < 0 then .error validationError
  else .ok p

/-- Pydantic validation of `BookStockUpdate`: `set_stock`, when present,
needs `ge=0`; `delta` is unconstrained. -/
def parseBookStockUpdate (p : BookStockUpdate) : Except HTTPError BookStockUpdate :=
  match p.set_stock with
  | some v => if v < 0 then .error validationError else .ok p
  | none => .ok p

/-- Pydantic validation of `OrderCreate`: `qty` needs `gt=0`,
`customer_name` needs `min_length=1`. -/
def parseOrderCreate (p : OrderCreate) : Except HTTPError OrderCreate :=
  if p.qty ≤ 0 then .error validationError
  else if p.customer_name = "" then .error validationError
  else .ok p

/-! ### Substring containment (Python's `in` on `str`) -/

/-- Python `s.startswith(q)` on character lists. -/
def listStartsWith : List Char → List Char → Bool
  | _, [] => true
  | [], _ :: _ => false
  | a :: as, b :: bs => a == b && listStartsWith as bs

/-- Python `q in s` (substring containment) on character lists. -/
def listContainsSub : List Char → List Char → Bool
  | [], q => listStartsWith [] q
  | h :: t, q => listStartsWith (h :: t) q || listContainsSub t q

/-- Python `q in s` on strings. -/
def strContains (hay q : String) : Bool :=
  listContainsSub hay.data q.data

/-- Python `s.lower()`: character-wise lowercasing. -/
def strLower (s : String) : String := ⟨s.data.map Char.toLower⟩

/-! ### Handlers -/

/-- `POST /books` (`create_book`, lines 29-38): assign a fresh id and
insert the record.  The payload has already passed schema validation. -/
def create_book (payload : BookCreate) (s : AppState) : Book × AppState :=
  let book_id := s.nextId
  let book : Book := ⟨book_id, payload.title, payload.author, payload.stock⟩
  (book, ⟨s.books ++ [book], s.orders, s.nextId + 1⟩)

/-- `POST /books` including the pydantic layer. -/
def create_book_ep (payload : BookCreate) (s : AppState) :
    Except HTTPError (Book × AppState) :=
  match parseBookCreate payload with
  | .error e => .error e
  | .ok p => .ok (create_book p s)

/-- The filter predicate of `list_books`:
`q_lower in b["title"].lower() or q_lower in b["author"].lower()`. -/
def matchesQuery (qLower : String) (b : Book) : Bool :=
  strContains (strLower b.title) qLower || strContains (strLower b.author) qLower

/-- `GET /books` (`list_books`, lines 40-49).  `if q:` is false for both
`None` and the empty string. -/
def list_books (q : Option String) (s : AppState) : List Book × Nat :=
  let data := s.books
  let data := match q with
    | none => data
    | some qs => if qs = "" then data else data.filter (matchesQuery (strLower qs))
  (data, data.length)

/-- `GET /books/{book_id}` (`get_book`, lines 51-56). -/
def get_book (book_id : Nat) (s : AppState) : Except HTTPError Book :=
  match find_book s book_id with
  | none => .error ⟨404, "Buku tidak ditemukan"⟩
  | some b => .ok b

/-- `PATCH /books/{book_id}/stock` (`update_stock`, lines 58-78), after
schema validation: 404 when the book is missing, 400 when neither or both
of `set_stock`/`delta` are given, replace stock on the `set_stock` path,
add on the `delta` path rejecting a negative result with 400. -/
def update_stock (book_id : Nat) (payload : BookStockUpdate) (s : AppState) :
    Except HTTPError (Book × AppState) :=
  match find_book s book_id with
  | none => .error ⟨404, "Buku tidak ditemukan"⟩
  | some book =>
    match payload.set_stock, payload.delta with
    | none, none => .error ⟨400, "Isi set_stock atau delta"⟩
    | some _, some _ => .error ⟨400, "Pilih salah satu: set_stock atau delta"⟩
    | some v, none =>
      let book2 : Book := { book with stock := v }
      .ok (book2, setBook s book2)
    | none, some d =>
      let new_stock := book.stock + d
      if new_stock < 0 then .error ⟨400, "Stok tidak boleh negatif"⟩
      else
        let book2 : Book := { book with stock := new_stock }
        .ok (book2, setBook s book2)

/-- `PATCH /books/{book_id}/stock` including the pydantic layer. -/
def update_stock_ep (book_id : Nat) (payload : BookStockUpdate) (s : AppState) :
    Except HTTPError (Book × AppState) :=
  match parseBookStockUpdate payload with
  | .error e => .error e
  | .ok p => update_stock book_id p s

/-- `POST /orders` (`create_order`, lines 81-95), after schema
validation: 404 when the referenced book is missing, otherwise insert a
pending order with a fresh id.  Stock is neither checked nor changed. -/
def create_order (payload : OrderCreate) (s : AppState) :
    Except HTTPError (Order × AppState) :=
  match find_book s payload.book_id with
  | none => .error ⟨404, "Buku tidak ditemukan"⟩
  | some _ =>
    let order_id := s.nextId
    let order : Order :=
      ⟨order_id, payload.book_id, payload.qty, payload.customer_name, .pending⟩
    .ok (order, ⟨s.books, s.orders ++ [order], s.nextId + 1⟩)

/-- `POST /orders` including the pydantic layer. -/
def create_order_ep (payload : OrderCreate) (s : AppState) :
    Except HTTPError (Order × AppState) :=
  match parseOrderCreate payload with
  | .error e => .error e
  | .ok p => create_order p s

/-- `GET /orders/{order_id}` (`get_order`, lines 97-102). -/
def get_order (order_id : Nat) (s : AppState) : Except HTTPError Order :=
  match find_order s order_id with
  | none => .error ⟨404, "Pesanan tidak ditemukan"⟩
  | some o => .ok o

/-- `POST /orders/{order_id}/confirm` (`confirm_order`, lines 104-128):
404 when the order is missing, 400 when it is not pending, 404 when its
book no longer resolves, 400 when stock is insufficient; otherwise
decrement stock by `qty`, flip status to confirmed, and return
`{message, order, book}`. -/
def confirm_order (order_id : Nat) (s : AppState) :
    Except HTTPError ((String × Order × Book) × AppState) :=
  match find_order s order_id with
  | none => .error ⟨404, "Pesanan tidak ditemukan"⟩
  | some order =>
    if order.status ≠ OrderStatus.pending then
      .error ⟨400, "Pesanan sudah diproses / bukan pending"⟩
    else
      match find_book s order.book_id with
      | none => .error ⟨404, "Buku pada pesanan tidak ditemukan"⟩
      | some book =>
        if book.stock < order.qty then
          .error ⟨400, "Stok tidak mencukupi untuk konfirmasi"⟩
        else
          let book2 : Book := { book with stock := book.stock - order.qty }
          let order2 : Order := { order with status := .confirmed }
          .ok (("Pesanan berhasil dikonfirmasi", order2, book2),
               setOrder (setBook s book2) order2)

/-! ### Reachable states -/

/-- One external request against the API. -/
inductive Op
  | createBook (p : BookCreate)
  | listBooks (q : Option String)
  | getBook (id : Nat)
  | updateStock (id : Nat) (p : BookStockUpdate)
  | createOrder (p : OrderCreate)
  | getOrder (id : Nat)
  | confirmOrder (id : Nat)
deriving Repr

/-- The state after serving one request.  A raised `HTTPException`
leaves the state as it was: every handler raises before it mutates. -/
def applyOp (op : Op) (s : AppState) : AppState :=
  match op with
  | .createBook p =>
    match create_book_ep p s with
    | .ok (_, s2) => s2
    | .error _ => s
  | .listBooks _ => s
  | .getBook _ => s
  | .updateStock i p =>
    match update_stock_ep i p s with
    | .ok (_, s2) => s2
    | .error _ => s
  | .createOrder p =>
    match create_order_ep p s with
    | .ok (_, s2) => s2
    | .error _ => s
  | .getOrder _ => s
  | .confirmOrder i =>
    match confirm_order i s with
    | .ok (_, s2) => s2
    | .error _ => s

/-- The state reached by serving a sequence of requests from process
start. -/
def reach (ops : List Op) : AppState :=
  ops.foldl (fun s op => applyOp op s) initState

/-! ### Invariants -/

/-- Every stored book has non-negative stock. -/
def StockOk (s : AppState) : Prop := ∀ b ∈ s.books, 0 ≤ b.stock

/-- Every stored id is below the fresh-id counter. -/
def IdsFresh (s : AppState) : Prop :=
  (∀ b ∈ s.books, b.id < s.nextId) ∧ (∀ o ∈ s.orders, o.id < s.nextId)

/-- Stored book ids are pairwise distinct, and so are order ids. -/
def IdsNodup (s : AppState) : Prop :=
  (s.books.map Book.id).Nodup ∧ (s.orders.map Order.id).Nodup

/-- The state invariant maintained by every request. -/
def Inv (s : AppState) : Prop := StockOk s ∧ IdsFresh s ∧ IdsNodup s

/-- The status code of a handler outcome, when it is an error. -/
def errStatus {α : Type} : Except HTTPError α → Option Nat
  | .error e => some e.status_code
  | .ok _ => none

/-! ### Lookup lemmas -/

theorem find?_map_pred {α : Type} (f : α → α) (p : α → Bool) (l : List α)
    (h : ∀ x, p (f x) = p x) : (l.map f).find? p = (l.find? p).map f := by
  induction l with
  | nil => rfl
  | cons a t ih =>
    simp only [List.map_cons, List.find?_cons, h a]
    cases hp : p a <;> simp [ih]

theorem find?_append_left {α : Type} (p : α → Bool) (l₁ l₂ : List α) (a : α)
    (h : l₁.find? p = some a) : (l₁ ++ l₂).find? p = some a := by
  induction l₁ with
  | nil => simp [List.find?] at h
  | cons x t ih =>
    simp only [List.cons_append, List.find?_cons] at h ⊢
    cases hp : p x <;> simp only [hp] at h ⊢
    · exact ih h
    · exact h

theorem find_book_setBook (s : AppState) (b2 : Book) (i : Nat) :
    find_book (setBook s b2) i =
      (find_book s i).map (fun b => if b.id == b2.id then b2 else b) := by
  unfold find_book setBook
  apply find?_map_pred
  intro x
  by_cases h : x.id = b2.id <;> simp [h]

theorem find_order_setOrder (s : AppState) (o2 : Order) (i : Nat) :
    find_order (setOrder s o2) i =
      (find_order s i).map (fun o => if o.id == o2.id then o2 else o) := by
  unfold find_order setOrder
  apply find?_map_pred
  intro x
  by_cases h : x.id = o2.id <;> simp [h]

theorem find_order_setBook (s : AppState) (b2 : Book) (i : Nat) :
    find_order (setBook s b2) i = find_order s i := rfl

theorem find_book_setOrder (s : AppState) (o2 : Order) (i : Nat) :
    find_book (setOrder s o2) i = find_book s i := rfl

theorem find_book_id (s : AppState) (i : Nat) (b : Book)
    (h : find_book s i = some b) : b.id = i ∧ b ∈ s.books := by
  refine ⟨?_, List.mem_of_find?_eq_some h⟩
  have := List.find?_some h
  simpa using this

theorem find_order_id (s : AppState) (i : Nat) (o : Order)
    (h : find_order s i = some o) : o.id = i ∧ o ∈ s.orders := by
  refine ⟨?_, List.mem_of_find?_eq_some h⟩
  have := List.find?_some h
  simpa using this

/-- Replacing a book's record never changes the list of stored ids. -/
theorem map_id_setBook (b2 : Book) (l : List Book) :
    (l.map (fun x => if x.id == b2.id then b2 else x)).map Book.id =
      l.map Book.id := by
  induction l with
  | nil => rfl
  | cons a t ih =>
    simp only [List.map_cons, ih, List.cons.injEq, and_true]
    by_cases h : a.id = b2.id <;> simp [h]

/-- Replacing an order's record never changes the list of stored ids. -/
theorem map_id_setOrder (o2 : Order) (l : List Order) :
    (l.map (fun x => if x.id == o2.id then o2 else x)).map Order.id =
      l.map Order.id := by
  induction l with
  | nil => rfl
  | cons a t ih =>
    simp only [List.map_cons, ih, List.cons.injEq, and_true]
    by_cases h : a.id = o2.id <;> simp [h]

/-! ### What a successful call tells us -/

theorem create_book_ep_ok (p : BookCreate) (s : AppState) (b : Book)
    (s2 : AppState) (h : create_book_ep p s = .ok (b, s2)) :
    0 ≤ b.stock ∧ b.id = s.nextId ∧
      s2 = ⟨s.books ++ [b], s.orders, s.nextId + 1⟩ := by
  unfold create_book_ep parseBookCreate create_book at h
  split at h
  · simp at h
  · rename_i p' heq
    split at heq
    · simp at heq
    · split at heq
      · simp at heq
      · split at heq
        · simp at heq
        · rename_i hst
          simp only [Except.ok.injEq] at heq h
          obtain ⟨hb, hs2⟩ := Prod.mk.injEq .. ▸ h
          subst heq
          constructor
          · simp only [← hb]
            omega
          · exact ⟨by simp [← hb], by simp [← hs2, ← hb]⟩

theorem update_stock_ep_ok (i : Nat) (p : BookStockUpdate) (s : AppState)
    (b2 : Book) (s2 : AppState) (h : update_stock_ep i p s = .ok (b2, s2)) :
    0 ≤ b2.stock ∧ s2 = setBook s b2 := by
  unfold update_stock_ep parseBookStockUpdate update_stock at h
  split at h
  · simp at h
  · rename_i p' heq
    have hp' : p' = p ∧ (∀ v, p.set_stock = some v → 0 ≤ v) := by
      split at heq
      · rename_i v hv
        split at heq
        · simp at heq
        · rename_i hvneg
          simp only [Except.ok.injEq] at heq
          exact ⟨heq.symm, fun w hw => by
            rw [hv] at hw
            injection hw with hvw
            omega⟩
      · rename_i hv
        simp only [Except.ok.injEq] at heq
        exact ⟨heq.symm, fun w hw => by rw [hv] at hw; cases hw⟩
    obtain ⟨rfl, hge⟩ := hp'
    split at h
    · simp at h
    · rename_i book hbook
      split at h
      · simp at h
      · simp at h
      · rename_i v hv _
        simp only [Except.ok.injEq, Prod.mk.injEq] at h
        obtain ⟨hb2, hs2⟩ := h
        refine ⟨?_, hs2.symm ▸ by rw [hb2]⟩
        rw [← hb2]
        exact hge v hv
      · rename_i d _ hd
        dsimp only [] at h
        split at h
        · simp at h
        · rename_i hnn
          simp only [Except.ok.injEq, Prod.mk.injEq] at h
          obtain ⟨hb2, hs2⟩ := h
          refine ⟨?_, hs2.symm ▸ by rw [hb2]⟩
          rw [← hb2]
          simpa using hnn

theorem create_order_ep_ok (p : OrderCreate) (s : AppState) (o : Order)
    (s2 : AppState) (h : create_order_ep p s = .ok (o, s2)) :
    0 < o.qty ∧ o.id = s.nextId ∧ o.status = .pending ∧
      s2 = ⟨s.books, s.orders ++ [o], s.nextId + 1⟩ := by
  unfold create_order_ep parseOrderCreate create_order at h
  split at h
  · simp at h
  · rename_i p' heq
    have hp' : p' = p ∧ 0 < p.qty := by
      split at heq
      · simp at heq
      · split at heq
        · simp at heq
        · rename_i hq _
          simp only [Except.ok.injEq] at heq
          exact ⟨heq.symm, by omega⟩
    obtain ⟨rfl, hq⟩ := hp'
    split at h
    · simp at h
    · simp only [Except.ok.injEq, Prod.mk.injEq] at h
      obtain ⟨ho, hs2⟩ := h
      exact ⟨by rw [← ho]; exact hq, by rw [← ho], by rw [← ho],
        by rw [← hs2, ← ho]⟩

theorem confirm_order_ok (i : Nat) (s : AppState) (msg : String) (o2 : Order)
    (b2 : Book) (s2 : AppState)
    (h : confirm_order i s = .ok ((msg, o2, b2), s2)) :
    ∃ o b, find_order s i = some o ∧ o.status = .pending ∧
      find_book s o.book_id = some b ∧ o.qty ≤ b.stock ∧
      o2 = { o with status := .confirmed } ∧
      b2 = { b with stock := b.stock - o.qty } ∧
      msg = "Pesanan berhasil dikonfirmasi" ∧
      s2 = setOrder (setBook s b2) o2 := by
  unfold confirm_order at h
  split at h
  · simp at h
  · rename_i o ho
    split at h
    · simp at h
    · rename_i hpend
      split at h
      · simp at h
      · rename_i b hb
        split at h
        · simp at h
        · rename_i hstock
          simp only [Except.ok.injEq, Prod.mk.injEq] at h
          obtain ⟨⟨hmsg, ho2, hb2⟩, hs2⟩ := h
          refine ⟨o, b, ho, ?_, hb, by omega, ho2.symm, hb2.symm, hmsg.symm, ?_⟩
          · simpa using hpend
          · rw [← hs2, ← ho2, ← hb2]

/-! ### Invariant preservation -/

theorem stockOk_setBook (s : AppState) (b2 : Book) (hs : StockOk s)
    (hb : 0 ≤ b2.stock) : StockOk (setBook s b2) := by
  intro x hx
  simp only [setBook, List.mem_map] at hx
  obtain ⟨a, ha, rfl⟩ := hx
  split
  · exact hb
  · exact hs a ha

theorem stockOk_setOrder (s : AppState) (o2 : Order) (hs : StockOk s) :
    StockOk (setOrder s o2) :=
  fun b hb => hs b hb

theorem idsFresh_of_maps (s s' : AppState)
    (hb : s'.books.map Book.id = s.books.map Book.id)
    (ho : s'.orders.map Order.id = s.orders.map Order.id)
    (hn : s'.nextId = s.nextId) (h : IdsFresh s) : IdsFresh s' := by
  constructor
  · intro b hbmem
    have hmem : b.id ∈ s'.books.map Book.id := List.mem_map_of_mem _ hbmem
    rw [hb] at hmem
    obtain ⟨a, ha, haid⟩ := List.mem_map.mp hmem
    rw [hn, ← haid]
    exact h.1 a ha
  · intro o homem
    have hmem : o.id ∈ s'.orders.map Order.id := List.mem_map_of_mem _ homem
    rw [ho] at hmem
    obtain ⟨a, ha, haid⟩ := List.mem_map.mp hmem
    rw [hn, ← haid]
    exact h.2 a ha

theorem idsNodup_of_maps (s s' : AppState)
    (hb : s'.books.map Book.id = s.books.map Book.id)
    (ho : s'.orders.map Order.id = s.orders.map Order.id)
    (h : IdsNodup s) : IdsNodup s' := by
  constructor
  · rw [hb]; exact h.1
  · rw [ho]; exact h.2

theorem inv_setBook (s : AppState) (b2 : Book) (hs : Inv s)
    (hb : 0 ≤ b2.stock) : Inv (setBook s b2) := by
  obtain ⟨h1, h2, h3⟩ := hs
  refine ⟨stockOk_setBook s b2 h1 hb, ?_, ?_⟩
  · exact idsFresh_of_maps s _ (map_id_setBook b2 s.books) rfl rfl h2
  · exact idsNodup_of_maps s _ (map_id_setBook b2 s.books) rfl h3

theorem inv_setOrder (s : AppState) (o2 : Order) (hs : Inv s) :
    Inv (setOrder s o2) := by
  obtain ⟨h1, h2, h3⟩ := hs
  refine ⟨stockOk_setOrder s o2 h1, ?_, ?_⟩
  · exact idsFresh_of_maps s _ rfl (map_id_setOrder o2 s.orders) rfl h2
  · exact idsNodup_of_maps s _ rfl (map_id_setOrder o2 s.orders) h3

theorem inv_applyOp (op : Op) (s : AppState) (h : Inv s) : Inv (applyOp op s) := by
  cases op with
  | listBooks q => exact h
  | getBook i => exact h
  | getOrder i => exact h
  | createBook p =>
    cases heq : create_book_ep p s with
    | error e => simpa only [applyOp, heq] using h
    | ok pr =>
      obtain ⟨b, s2⟩ := pr
      obtain ⟨hbs, hbid, rfl⟩ := create_book_ep_ok p s b s2 heq
      simp only [applyOp, heq]
      obtain ⟨h1, ⟨h2b, h2o⟩, h3b, h3o⟩ := h
      refine ⟨?_, ⟨?_, ?_⟩, ?_, h3o⟩
      · intro x hx
        rcases List.mem_append.mp hx with hx | hx
        · exact h1 x hx
        · rw [List.mem_singleton.mp hx]; exact hbs
      · intro x hx
        rcases List.mem_append.mp hx with hx | hx
        · exact Nat.lt_succ_of_lt (h2b x hx)
        · rw [List.mem_singleton.mp hx, hbid]; exact Nat.lt_succ_self _
      · intro o ho
        exact Nat.lt_succ_of_lt (h2o o ho)
      · rw [List.map_append]
        simp only [List.map_cons, List.map_nil]
        rw [List.nodup_append]
        refine ⟨h3b, List.nodup_singleton _, ?_⟩
        intro x hx hxb
        rw [List.mem_singleton.mp hxb, hbid] at hx
        obtain ⟨a, ha, haid⟩ := List.mem_map.mp hx
        exact absurd haid (Nat.ne_of_lt (h2b a ha))
  | updateStock i p =>
    cases heq : update_stock_ep i p s with
    | error e => simpa only [applyOp, heq] using h
    | ok pr =>
      obtain ⟨b2, s2⟩ := pr
      obtain ⟨hbs, rfl⟩ := update_stock_ep_ok i p s b2 s2 heq
      simp only [applyOp, heq]
      exact inv_setBook s b2 h hbs
  | createOrder p =>
    cases heq : create_order_ep p s with
    | error e => simpa only [applyOp, heq] using h
    | ok pr =>
      obtain ⟨o, s2⟩ := pr
      obtain ⟨hq, hoid, hst, rfl⟩ := create_order_ep_ok p s o s2 heq
      simp only [applyOp, heq]
      obtain ⟨h1, ⟨h2b, h2o⟩, h3b, h3o⟩ := h
      refine ⟨fun x hx => h1 x hx, ⟨fun x hx => Nat.lt_succ_of_lt (h2b x hx), ?_⟩,
        h3b, ?_⟩
      · intro x hx
        rcases List.mem_append.mp hx with hx | hx
        · exact Nat.lt_succ_of_lt (h2o x hx)
        · rw [List.mem_singleton.mp hx, hoid]; exact Nat.lt_succ_self _
      · rw [List.map_append]
        simp only [List.map_cons, List.map_nil]
        rw [List.nodup_append]
        refine ⟨h3o, List.nodup_singleton _, ?_⟩
        intro x hx hxo
        rw [List.mem_singleton.mp hxo, hoid] at hx
        obtain ⟨a, ha, haid⟩ := List.mem_map.mp hx
        exact absurd haid (Nat.ne_of_lt (h2o a ha))
  | confirmOrder i =>
    cases heq : confirm_order i s with
    | error e => simpa only [applyOp, heq] using h
    | ok pr =>
      obtain ⟨⟨msg, o2, b2⟩, s2⟩ := pr
      obtain ⟨o, b, ho, hop, hb, hqs, ho2, hb2, hmsg, rfl⟩ :=
        confirm_order_ok i s msg o2 b2 s2 heq
      simp only [applyOp, heq]
      have hbmem : b ∈ s.books := (find_book_id s o.book_id b hb).2
      have hb2s : 0 ≤ b2.stock := by
        rw [hb2]
        show 0 ≤ b.stock - o.qty
        have := h.1 b hbmem
        omega
      exact inv_setOrder _ o2 (inv_setBook s b2 h hb2s)

theorem inv_init : Inv initState := by
  refine ⟨?_, ⟨?_, ?_⟩, ?_, ?_⟩ <;> simp [initState, StockOk, IdsNodup]

theorem inv_foldl (l : List Op) :
    ∀ s : AppState, Inv s → Inv (l.foldl (fun s op => applyOp op s) s) := by
  induction l with
  | nil => intro s hs; exact hs
  | cons a t ih =>
    intro s hs
    exact ih _ (inv_applyOp a s hs)

/-- Every reachable state satisfies the invariant. -/
theorem inv_reach (ops : List Op) : Inv (reach ops) :=
  inv_foldl ops initState inv_init

/-! ### Claims -/

/-- C1: In every reachable state of the books store every book's stock is a
non-negative integer, and a single operation whose result would make a stock
negative is rejected and leaves the state (hence the prior stock) unchanged:
a `delta` that would drive stock negative is rejected with 400, a negative
`set_stock` is rejected at schema validation, and a confirm with
insufficient stock is rejected with 400. -/
theorem C1_stock_nonneg_invariant :
    (∀ ops : List Op, StockOk (reach ops)) ∧
    (∀ (s : AppState) (bid : Nat) (d : Int) (b : Book),
      find_book s bid = some b → b.stock + d < 0 →
      update_stock_ep bid ⟨none, some d⟩ s =
        .error ⟨400, "Stok tidak boleh negatif"⟩ ∧
      applyOp (.updateStock bid ⟨none, some d⟩) s = s) ∧
    (∀ (s : AppState) (bid : Nat) (v : Int), v < 0 →
      update_stock_ep bid ⟨some v, none⟩ s = .error validationError ∧
      applyOp (.updateStock bid ⟨some v, none⟩) s = s) ∧
    (∀ (s : AppState) (oid : Nat) (o : Order) (b : Book),
      find_order s oid = some o → o.status = .pending →
      find_book s o.book_id = some b → b.stock < o.qty →
      confirm_order oid s =
        .error ⟨400, "Stok tidak mencukupi untuk konfirmasi"⟩ ∧
      applyOp (.confirmOrder oid) s = s) := by
  refine ⟨fun ops => (inv_reach ops).1, ?_, ?_, ?_⟩
  · intro s bid d b hb hneg
    have herr : update_stock_ep bid ⟨none, some d⟩ s =
        .error ⟨400, "Stok tidak boleh negatif"⟩ := by
      unfold update_stock_ep parseBookStockUpdate update_stock
      rw [hb]
      simpa using hneg
    exact ⟨herr, by simp only [applyOp, herr]⟩
  · intro s bid v hv
    have herr : update_stock_ep bid ⟨some v, none⟩ s = .error validationError := by
      unfold update_stock_ep parseBookStockUpdate
      dsimp only
      rw [if_pos hv]
    exact ⟨herr, by simp only [applyOp, herr]⟩
  · intro s oid o b ho hp hb hq
    have herr : confirm_order oid s =
        .error ⟨400, "Stok tidak mencukupi untuk konfirmasi"⟩ := by
      unfold confirm_order
      simp only [ho]
      rw [if_neg (by simp [hp])]
      simp only [hb]
      rw [if_pos hq]
    exact ⟨herr, by simp only [applyOp, herr]⟩

/-- Closed witness for C1 at concrete inputs. -/
theorem C1_stock_nonneg_invariant_witness :
    StockOk (reach [Op.createBook ⟨"Dune", "Herbert", 3⟩]) ∧
    (update_stock_ep 0 ⟨none, some (-3)⟩ ⟨[⟨0, "Dune", "Herbert", 2⟩], [], 1⟩ =
        .error ⟨400, "Stok tidak boleh negatif"⟩ ∧
      applyOp (.updateStock 0 ⟨none, some (-3)⟩)
          ⟨[⟨0, "Dune", "Herbert", 2⟩], [], 1⟩ =
        ⟨[⟨0, "Dune", "Herbert", 2⟩], [], 1⟩) ∧
    (update_stock_ep 0 ⟨some (-1), none⟩ ⟨[⟨0, "Dune", "Herbert", 2⟩], [], 1⟩ =
        .error validationError ∧
      applyOp (.updateStock 0 ⟨some (-1), none⟩)
          ⟨[⟨0, "Dune", "Herbert", 2⟩], [], 1⟩ =
        ⟨[⟨0, "Dune", "Herbert", 2⟩], [], 1⟩) ∧
    (confirm_order 1 ⟨[⟨0, "Dune", "Herbert", 2⟩],
          [⟨1, 0, 5, "Ana", .pending⟩], 2⟩ =
        .error ⟨400, "Stok tidak mencukupi untuk konfirmasi"⟩ ∧
      applyOp (.confirmOrder 1) ⟨[⟨0, "Dune", "Herbert", 2⟩],
          [⟨1, 0, 5, "Ana", .pending⟩], 2⟩ =
        ⟨[⟨0, "Dune", "Herbert", 2⟩], [⟨1, 0, 5, "Ana", .pending⟩], 2⟩) :=
  ⟨C1_stock_nonneg_invariant.1 [Op.createBook ⟨"Dune", "Herbert", 3⟩],
   C1_stock_nonneg_invariant.2.1 ⟨[⟨0, "Dune", "Herbert", 2⟩], [], 1⟩ 0 (-3)
     ⟨0, "Dune", "Herbert", 2⟩ rfl (by decide),
   C1_stock_nonneg_invariant.2.2.1 ⟨[⟨0, "Dune", "Herbert", 2⟩], [], 1⟩ 0 (-1)
     (by decide),
   C1_stock_nonneg_invariant.2.2.2
     ⟨[⟨0, "Dune", "Herbert", 2⟩], [⟨1, 0, 5, "Ana", .pending⟩], 2⟩ 1
     ⟨1, 0, 5, "Ana", .pending⟩ ⟨0, "Dune", "Herbert", 2⟩ rfl rfl rfl
     (by decide)⟩

/-- C2: Confirming a pending order whose book exists with stock ≥ qty
succeeds, returns the order with status confirmed and the book with stock
decremented by exactly qty together with the success message, and the new
state stores exactly those two updated records at their ids. -/
theorem C2_confirm_success (s : AppState) (oid : Nat) (o : Order) (b : Book)
    (ho : find_order s oid = some o) (hp : o.status = .pending)
    (hb : find_book s o.book_id = some b) (hq : o.qty ≤ b.stock) :
    confirm_order oid s =
      .ok (("Pesanan berhasil dikonfirmasi",
            { o with status := .confirmed },
            { b with stock := b.stock - o.qty }),
           setOrder (setBook s { b with stock := b.stock - o.qty })
             { o with status := .confirmed }) ∧
    find_book (setOrder (setBook s { b with stock := b.stock - o.qty })
        { o with status := .confirmed }) o.book_id =
      some { b with stock := b.stock - o.qty } ∧
    find_order (setOrder (setBook s { b with stock := b.stock - o.qty })
        { o with status := .confirmed }) oid =
      some { o with status := .confirmed } := by
  refine ⟨?_, ?_, ?_⟩
  · unfold confirm_order
    simp only [ho]
    rw [if_neg (by simp [hp])]
    simp only [hb]
    rw [if_neg (not_lt.mpr hq)]
  · rw [find_book_setOrder, find_book_setBook, hb]
    simp
  · rw [find_order_setOrder, find_order_setBook, ho]
    simp

/-- Closed witness for C2: the spec's example, a book with stock 10 and an
order with qty 3. -/
theorem C2_confirm_success_witness :
    confirm_order 1 ⟨[⟨0, "Dune", "Herbert", 10⟩],
        [⟨1, 0, 3, "Ana", .pending⟩], 2⟩ =
      .ok (("Pesanan berhasil dikonfirmasi",
            ⟨1, 0, 3, "Ana", .confirmed⟩, ⟨0, "Dune", "Herbert", 7⟩),
           setOrder (setBook ⟨[⟨0, "Dune", "Herbert", 10⟩],
               [⟨1, 0, 3, "Ana", .pending⟩], 2⟩ ⟨0, "Dune", "Herbert", 7⟩)
             ⟨1, 0, 3, "Ana", .confirmed⟩) ∧
    find_book (setOrder (setBook ⟨[⟨0, "Dune", "Herbert", 10⟩],
          [⟨1, 0, 3, "Ana", .pending⟩], 2⟩ ⟨0, "Dune", "Herbert", 7⟩)
        ⟨1, 0, 3, "Ana", .confirmed⟩) 0 = some ⟨0, "Dune", "Herbert", 7⟩ ∧
    find_order (setOrder (setBook ⟨[⟨0, "Dune", "Herbert", 10⟩],
          [⟨1, 0, 3, "Ana", .pending⟩], 2⟩ ⟨0, "Dune", "Herbert", 7⟩)
        ⟨1, 0, 3, "Ana", .confirmed⟩) 1 = some ⟨1, 0, 3, "Ana", .confirmed⟩ :=
  C2_confirm_success ⟨[⟨0, "Dune", "Herbert", 10⟩],
      [⟨1, 0, 3, "Ana", .pending⟩], 2⟩ 1
    ⟨1, 0, 3, "Ana", .pending⟩ ⟨0, "Dune", "Herbert", 10⟩ rfl rfl rfl
    (by decide)

/-- C3: After a successful confirm, confirming the same order id again
fails with 400 "already processed" and changes no state; and once an
order's status is confirmed, serving any further request leaves the order
at that id confirmed. -/
theorem C3_confirm_at_most_once :
    (∀ (s : AppState) (oid : Nat) (r : String × Order × Book) (s2 : AppState),
      confirm_order oid s = .ok (r, s2) →
      confirm_order oid s2 =
        .error ⟨400, "Pesanan sudah diproses / bukan pending"⟩ ∧
      applyOp (.confirmOrder oid) s2 = s2) ∧
    (∀ (s : AppState) (op : Op) (oid : Nat) (o : Order),
      find_order s oid = some o → o.status = .confirmed →
      ∃ o3, find_order (applyOp op s) oid = some o3 ∧
        o3.status = .confirmed) := by
  constructor
  · intro s oid r s2 h
    obtain ⟨msg, o2, b2⟩ := r
    obtain ⟨o, b, ho, hop, hb, hqs, ho2, hb2, hmsg, rfl⟩ :=
      confirm_order_ok oid s msg o2 b2 s2 h
    have hfind : find_order (setOrder (setBook s b2) o2) oid = some o2 := by
      rw [find_order_setOrder, find_order_setBook, ho]
      simp [ho2]
    have herr : confirm_order oid (setOrder (setBook s b2) o2) =
        .error ⟨400, "Pesanan sudah diproses / bukan pending"⟩ := by
      unfold confirm_order
      simp only [hfind]
      rw [if_pos (by simp [ho2])]
    exact ⟨herr, by simp only [applyOp, herr]⟩
  · intro s op oid o ho hconf
    cases op with
    | listBooks q => exact ⟨o, ho, hconf⟩
    | getBook i => exact ⟨o, ho, hconf⟩
    | getOrder i => exact ⟨o, ho, hconf⟩
    | createBook p =>
      cases heq : create_book_ep p s with
      | error e => exact ⟨o, by simpa only [applyOp, heq] using ho, hconf⟩
      | ok pr =>
        obtain ⟨b, s2⟩ := pr
        obtain ⟨_, _, rfl⟩ := create_book_ep_ok p s b s2 heq
        refine ⟨o, ?_, hconf⟩
        simp only [applyOp, heq]
        exact ho
    | updateStock i p =>
      cases heq : update_stock_ep i p s with
      | error e => exact ⟨o, by simpa only [applyOp, heq] using ho, hconf⟩
      | ok pr =>
        obtain ⟨b2, s2⟩ := pr
        obtain ⟨_, rfl⟩ := update_stock_ep_ok i p s b2 s2 heq
        refine ⟨o, ?_, hconf⟩
        simp only [applyOp, heq]
        rw [find_order_setBook]
        exact ho
    | createOrder p =>
      cases heq : create_order_ep p s with
      | error e => exact ⟨o, by simpa only [applyOp, heq] using ho, hconf⟩
      | ok pr =>
        obtain ⟨onew, s2⟩ := pr
        obtain ⟨_, _, _, rfl⟩ := create_order_ep_ok p s onew s2 heq
        refine ⟨o, ?_, hconf⟩
        simp only [applyOp, heq]
        show (s.orders ++ [onew]).find? (fun x => x.id == oid) = some o
        exact find?_append_left _ _ _ _ ho
    | confirmOrder i =>
      cases heq : confirm_order i s with
      | error e => exact ⟨o, by simpa only [applyOp, heq] using ho, hconf⟩
      | ok pr =>
        obtain ⟨⟨msg, o2, b2⟩, s2⟩ := pr
        obtain ⟨o', b, ho', hop', hb', hqs', ho2, hb2, hmsg, rfl⟩ :=
          confirm_order_ok i s msg o2 b2 s2 heq
        simp only [applyOp, heq]
        rw [find_order_setOrder, find_order_setBook, ho]
        by_cases hid : o.id = o2.id
        · refine ⟨o2, by simp [hid], ?_⟩
          rw [ho2]
        · exact ⟨o, by simp [hid], hconf⟩

/-- Closed witness for C3 at concrete inputs. -/
theorem C3_confirm_at_most_once_witness :
    (confirm_order 1
        (setOrder (setBook ⟨[⟨0, "B", "A", 5⟩], [⟨1, 0, 2, "Cust", .pending⟩], 2⟩
            ⟨0, "B", "A", 3⟩) ⟨1, 0, 2, "Cust", .confirmed⟩) =
      .error ⟨400, "Pesanan sudah diproses / bukan pending"⟩ ∧
     applyOp (.confirmOrder 1)
        (setOrder (setBook ⟨[⟨0, "B", "A", 5⟩], [⟨1, 0, 2, "Cust", .pending⟩], 2⟩
            ⟨0, "B", "A", 3⟩) ⟨1, 0, 2, "Cust", .confirmed⟩) =
      setOrder (setBook ⟨[⟨0, "B", "A", 5⟩], [⟨1, 0, 2, "Cust", .pending⟩], 2⟩
          ⟨0, "B", "A", 3⟩) ⟨1, 0, 2, "Cust", .confirmed⟩) ∧
    (∃ o3, find_order (applyOp (.confirmOrder 1)
        ⟨[⟨0, "T", "A", 1⟩], [⟨1, 0, 1, "C", .confirmed⟩], 2⟩) 1 = some o3 ∧
      o3.status = .confirmed) :=
  ⟨C3_confirm_at_most_once.1 ⟨[⟨0, "B", "A", 5⟩], [⟨1, 0, 2, "Cust", .pending⟩], 2⟩
      1 ("Pesanan berhasil dikonfirmasi", ⟨1, 0, 2, "Cust", .confirmed⟩,
        ⟨0, "B", "A", 3⟩)
      (setOrder (setBook ⟨[⟨0, "B", "A", 5⟩], [⟨1, 0, 2, "Cust", .pending⟩], 2⟩
          ⟨0, "B", "A", 3⟩) ⟨1, 0, 2, "Cust", .confirmed⟩) rfl,
   C3_confirm_at_most_once.2 ⟨[⟨0, "T", "A", 1⟩], [⟨1, 0, 1, "C", .confirmed⟩], 2⟩
      (.confirmOrder 1) 1 ⟨1, 0, 1, "C", .confirmed⟩ rfl rfl⟩

/-- C4: Confirming a pending order whose book exists but has stock < qty
fails with 400 "insufficient stock" and mutates nothing: the state is
unchanged, so the book's stock and the order's pending status are
unchanged. -/
theorem C4_insufficient_stock (s : AppState) (oid : Nat) (o : Order) (b : Book)
    (ho : find_order s oid = some o) (hp : o.status = .pending)
    (hb : find_book s o.book_id = some b) (hq : b.stock < o.qty) :
    confirm_order oid s =
      .error ⟨400, "Stok tidak mencukupi untuk konfirmasi"⟩ ∧
    applyOp (.confirmOrder oid) s = s ∧
    find_book (applyOp (.confirmOrder oid) s) o.book_id = some b ∧
    find_order (applyOp (.confirmOrder oid) s) oid = some o := by
  have herr : confirm_order oid s =
      .error ⟨400, "Stok tidak mencukupi untuk konfirmasi"⟩ := by
    unfold confirm_order
    simp only [ho]
    rw [if_neg (by simp [hp])]
    simp only [hb]
    rw [if_pos hq]
  have happ : applyOp (.confirmOrder oid) s = s := by
    simp only [applyOp, herr]
  exact ⟨herr, happ, by rw [happ]; exact hb, by rw [happ]; exact ho⟩

/-- Closed witness for C4: the spec's example, stock 2 against qty 5. -/
theorem C4_insufficient_stock_witness :
    confirm_order 7 ⟨[⟨3, "Dune", "Herbert", 2⟩],
        [⟨7, 3, 5, "Budi", .pending⟩], 8⟩ =
      .error ⟨400, "Stok tidak mencukupi untuk konfirmasi"⟩ ∧
    applyOp (.confirmOrder 7) ⟨[⟨3, "Dune", "Herbert", 2⟩],
        [⟨7, 3, 5, "Budi", .pending⟩], 8⟩ =
      ⟨[⟨3, "Dune", "Herbert", 2⟩], [⟨7, 3, 5, "Budi", .pending⟩], 8⟩ ∧
    find_book (applyOp (.confirmOrder 7) ⟨[⟨3, "Dune", "Herbert", 2⟩],
        [⟨7, 3, 5, "Budi", .pending⟩], 8⟩) 3 = some ⟨3, "Dune", "Herbert", 2⟩ ∧
    find_order (applyOp (.confirmOrder 7) ⟨[⟨3, "Dune", "Herbert", 2⟩],
        [⟨7, 3, 5, "Budi", .pending⟩], 8⟩) 7 = some ⟨7, 3, 5, "Budi", .pending⟩ :=
  C4_insufficient_stock ⟨[⟨3, "Dune", "Herbert", 2⟩],
      [⟨7, 3, 5, "Budi", .pending⟩], 8⟩ 7
    ⟨7, 3, 5, "Budi", .pending⟩ ⟨3, "Dune", "Herbert", 2⟩ rfl rfl rfl
    (by decide)

/-- C5 counterexample: supplying `set_stock = -1` for an existing book is
rejected by pydantic schema validation (`Field(ge=0)`) with status 422, not
400, refuting the claim that the negative-`set_stock` path responds 400. -/
theorem C5_counterexample :
    errStatus (update_stock_ep 0 ⟨some (-1), none⟩
        ⟨[⟨0, "Dune", "Herbert", 5⟩], [], 1⟩) = some 422 ∧
    errStatus (update_stock_ep 0 ⟨some (-1), none⟩
        ⟨[⟨0, "Dune", "Herbert", 5⟩], [], 1⟩) ≠ some 400 := by
  refine ⟨rfl, ?_⟩
  intro h
  rw [show errStatus (update_stock_ep 0 ⟨some (-1), none⟩
      ⟨[⟨0, "Dune", "Herbert", 5⟩], [], 1⟩) = some 422 from rfl] at h
  simp at h

/-- C5 amended: an update-stock request on an existing book whose `delta`
would make the resulting stock negative fails with 400 and leaves the state
unchanged; a negative `set_stock` never reaches the handler — it is
rejected at schema validation with 422, also leaving the state unchanged. -/
theorem C5_amended_negative_result (s : AppState) (bid : Nat) :
    (∀ (d : Int) (b : Book), find_book s bid = some b → b.stock + d < 0 →
      update_stock_ep bid ⟨none, some d⟩ s =
        .error ⟨400, "Stok tidak boleh negatif"⟩ ∧
      applyOp (.updateStock bid ⟨none, some d⟩) s = s) ∧
    (∀ v : Int, v < 0 →
      update_stock_ep bid ⟨some v, none⟩ s = .error validationError ∧
      validationError.status_code = 422 ∧
      applyOp (.updateStock bid ⟨some v, none⟩) s = s) := by
  constructor
  · intro d b hb hneg
    have herr : update_stock_ep bid ⟨none, some d⟩ s =
        .error ⟨400, "Stok tidak boleh negatif"⟩ := by
      unfold update_stock_ep parseBookStockUpdate update_stock
      rw [hb]
      simpa using hneg
    exact ⟨herr, by simp only [applyOp, herr]⟩
  · intro v hv
    have herr : update_stock_ep bid ⟨some v, none⟩ s = .error validationError := by
      unfold update_stock_ep parseBookStockUpdate
      dsimp only
      rw [if_pos hv]
    exact ⟨herr, rfl, by simp only [applyOp, herr]⟩

/-- Closed witness for the amended C5 at concrete inputs. -/
theorem C5_amended_negative_result_witness :
    (update_stock_ep 4 ⟨none, some (-9)⟩ ⟨[⟨4, "Emma", "Austen", 6⟩], [], 5⟩ =
        .error ⟨400, "Stok tidak boleh negatif"⟩ ∧
      applyOp (.updateStock 4 ⟨none, some (-9)⟩)
          ⟨[⟨4, "Emma", "Austen", 6⟩], [], 5⟩ =
        ⟨[⟨4, "Emma", "Austen", 6⟩], [], 5⟩) ∧
    (update_stock_ep 4 ⟨some (-2), none⟩ ⟨[⟨4, "Emma", "Austen", 6⟩], [], 5⟩ =
        .error validationError ∧
      validationError.status_code = 422 ∧
      applyOp (.updateStock 4 ⟨some (-2), none⟩)
          ⟨[⟨4, "Emma", "Austen", 6⟩], [], 5⟩ =
        ⟨[⟨4, "Emma", "Austen", 6⟩], [], 5⟩) :=
  ⟨(C5_amended_negative_result ⟨[⟨4, "Emma", "Austen", 6⟩], [], 5⟩ 4).1 (-9)
     ⟨4, "Emma", "Austen", 6⟩ rfl (by decide),
   (C5_amended_negative_result ⟨[⟨4, "Emma", "Austen", 6⟩], [], 5⟩ 4).2 (-2)
     (by decide)⟩

/-- C6 counterexample: supplying both `set_stock = -1` and `delta = 1` for
an existing book fails with status 422 (schema validation rejects the
negative `set_stock` first), not with the claimed 400. -/
theorem C6_counterexample :
    errStatus (update_stock_ep 0 ⟨some (-1), some 1⟩
        ⟨[⟨0, "Dune", "Herbert", 5⟩], [], 1⟩) = some 422 ∧
    errStatus (update_stock_ep 0 ⟨some (-1), some 1⟩
        ⟨[⟨0, "Dune", "Herbert", 5⟩], [], 1⟩) ≠ some 400 := by
  refine ⟨rfl, ?_⟩
  intro h
  rw [show errStatus (update_stock_ep 0 ⟨some (-1), some 1⟩
      ⟨[⟨0, "Dune", "Herbert", 5⟩], [], 1⟩) = some 422 from rfl] at h
  simp at h

/-- C6 amended: on an existing book, supplying both `set_stock` and `delta`
(with the supplied `set_stock` passing the `ge=0` schema bound) or neither
fails with 400 and leaves the state unchanged; when both are supplied and
`set_stock` is negative the request is instead rejected at schema
validation with 422, still leaving the state unchanged. -/
theorem C6_amended_both_or_neither (s : AppState) (bid : Nat) (b : Book)
    (hb : find_book s bid = some b) :
    (∀ v d : Int, 0 ≤ v →
      update_stock_ep bid ⟨some v, some d⟩ s =
        .error ⟨400, "Pilih salah satu: set_stock atau delta"⟩ ∧
      applyOp (.updateStock bid ⟨some v, some d⟩) s = s) ∧
    (update_stock_ep bid ⟨none, none⟩ s =
        .error ⟨400, "Isi set_stock atau delta"⟩ ∧
      applyOp (.updateStock bid ⟨none, none⟩) s = s) ∧
    (∀ v d : Int, v < 0 →
      update_stock_ep bid ⟨some v, some d⟩ s = .error validationError ∧
      validationError.status_code = 422 ∧
      applyOp (.updateStock bid ⟨some v, some d⟩) s = s) := by
  refine ⟨?_, ?_, ?_⟩
  · intro v d hge
    have herr : update_stock_ep bid ⟨some v, some d⟩ s =
        .error ⟨400, "Pilih salah satu: set_stock atau delta"⟩ := by
      unfold update_stock_ep parseBookStockUpdate update_stock
      dsimp only
      rw [if_neg (not_lt.mpr hge), hb]
    exact ⟨herr, by simp only [applyOp, herr]⟩
  · have herr : update_stock_ep bid ⟨none, none⟩ s =
        .error ⟨400, "Isi set_stock atau delta"⟩ := by
      unfold update_stock_ep parseBookStockUpdate update_stock
      rw [hb]
    exact ⟨herr, by simp only [applyOp, herr]⟩
  · intro v d hv
    have herr : update_stock_ep bid ⟨some v, some d⟩ s =
        .error validationError := by
      unfold update_stock_ep parseBookStockUpdate
      dsimp only
      rw [if_pos hv]
    exact ⟨herr, rfl, by simp only [applyOp, herr]⟩

/-- Closed witness for the amended C6 at concrete inputs. -/
theorem C6_amended_both_or_neither_witness :
    (update_stock_ep 2 ⟨some 3, some 1⟩ ⟨[⟨2, "Siddhartha", "Hesse", 4⟩], [], 3⟩ =
        .error ⟨400, "Pilih salah satu: set_stock atau delta"⟩ ∧
      applyOp (.updateStock 2 ⟨some 3, some 1⟩)
          ⟨[⟨2, "Siddhartha", "Hesse", 4⟩], [], 3⟩ =
        ⟨[⟨2, "Siddhartha", "Hesse", 4⟩], [], 3⟩) ∧
    (update_stock_ep 2 ⟨none, none⟩ ⟨[⟨2, "Siddhartha", "Hesse", 4⟩], [], 3⟩ =
        .error ⟨400, "Isi set_stock atau delta"⟩ ∧
      applyOp (.updateStock 2 ⟨none, none⟩)
          ⟨[⟨2, "Siddhartha", "Hesse", 4⟩], [], 3⟩ =
        ⟨[⟨2, "Siddhartha", "Hesse", 4⟩], [], 3⟩) ∧
    (update_stock_ep 2 ⟨some (-7), some 1⟩
          ⟨[⟨2, "Siddhartha", "Hesse", 4⟩], [], 3⟩ = .error validationError ∧
      validationError.status_code = 422 ∧
      applyOp (.updateStock 2 ⟨some (-7), some 1⟩)
          ⟨[⟨2, "Siddhartha", "Hesse", 4⟩], [], 3⟩ =
        ⟨[⟨2, "Siddhartha", "Hesse", 4⟩], [], 3⟩) :=
  ⟨(C6_amended_both_or_neither ⟨[⟨2, "Siddhartha", "Hesse", 4⟩], [], 3⟩ 2
      ⟨2, "Siddhartha", "Hesse", 4⟩ rfl).1 3 1 (by decide),
   (C6_amended_both_or_neither ⟨[⟨2, "Siddhartha", "Hesse", 4⟩], [], 3⟩ 2
      ⟨2, "Siddhartha", "Hesse", 4⟩ rfl).2.1,
   (C6_amended_both_or_neither ⟨[⟨2, "Siddhartha", "Hesse", 4⟩], [], 3⟩ 2
      ⟨2, "Siddhartha", "Hesse", 4⟩ rfl).2.2 (-7) 1 (by decide)⟩

/-- C7: A valid order-creation request (qty > 0, non-empty customer name)
against a nonexistent book id fails 404 and creates no order record;
against an existing book it succeeds with a fresh pending order, with the
books store — in particular every stock — untouched and unchecked. -/
theorem C7_create_order (s : AppState) (p : OrderCreate)
    (hq : 0 < p.qty) (hc : p.customer_name ≠ "") :
    (find_book s p.book_id = none →
      create_order_ep p s = .error ⟨404, "Buku tidak ditemukan"⟩ ∧
      applyOp (.createOrder p) s = s) ∧
    (∀ b, find_book s p.book_id = some b →
      create_order_ep p s =
        .ok (⟨s.nextId, p.book_id, p.qty, p.customer_name, .pending⟩,
             ⟨s.books, s.orders ++
               [⟨s.nextId, p.book_id, p.qty, p.customer_name, .pending⟩],
              s.nextId + 1⟩)) := by
  have hparse : parseOrderCreate p = .ok p := by
    unfold parseOrderCreate
    rw [if_neg (not_le.mpr hq), if_neg hc]
  constructor
  · intro hnone
    have herr : create_order_ep p s = .error ⟨404, "Buku tidak ditemukan"⟩ := by
      simp only [create_order_ep, hparse]
      unfold create_order
      simp only [hnone]
    exact ⟨herr, by simp only [applyOp, herr]⟩
  · intro b hbk
    simp only [create_order_ep, hparse]
    unfold create_order
    simp only [hbk]

/-- Closed witness for C7: a missing book id on an empty store, and an
existing book with stock 0. -/
theorem C7_create_order_witness :
    (create_order_ep ⟨9, 2, "Ana"⟩ ⟨[], [], 0⟩ =
        .error ⟨404, "Buku tidak ditemukan"⟩ ∧
      applyOp (.createOrder ⟨9, 2, "Ana"⟩) ⟨[], [], 0⟩ = ⟨[], [], 0⟩) ∧
    create_order_ep ⟨5, 2, "Ana"⟩ ⟨[⟨5, "T", "A", 0⟩], [], 6⟩ =
      .ok (⟨6, 5, 2, "Ana", .pending⟩,
           ⟨[⟨5, "T", "A", 0⟩], [⟨6, 5, 2, "Ana", .pending⟩], 7⟩) :=
  ⟨(C7_create_order ⟨[], [], 0⟩ ⟨9, 2, "Ana"⟩ (by decide) (by decide)).1 rfl,
   (C7_create_order ⟨[⟨5, "T", "A", 0⟩], [], 6⟩ ⟨5, 2, "Ana"⟩ (by decide)
      (by decide)).2 ⟨5, "T", "A", 0⟩ rfl⟩

/-! ### Substring containment characterized -/

theorem listStartsWith_iff (q : List Char) :
    ∀ l : List Char, listStartsWith l q = true ↔ ∃ post, l = q ++ post := by
  induction q with
  | nil =>
    intro l
    cases l <;> simp [listStartsWith]
  | cons b bs ih =>
    intro l
    cases l with
    | nil => simp [listStartsWith]
    | cons a as =>
      simp only [listStartsWith, Bool.and_eq_true, beq_iff_eq, ih as,
        List.cons_append, List.cons.injEq]
      constructor
      · rintro ⟨rfl, post, rfl⟩
        exact ⟨post, rfl, rfl⟩
      · rintro ⟨post, rfl, rfl⟩
        exact ⟨rfl, post, rfl⟩

theorem listContainsSub_iff (q l : List Char) :
    listContainsSub l q = true ↔ ∃ pre post, l = pre ++ (q ++ post) := by
  induction l with
  | nil =>
    simp only [listContainsSub, listStartsWith_iff]
    constructor
    · rintro ⟨post, h⟩
      exact ⟨[], post, by rw [List.nil_append]; exact h⟩
    · rintro ⟨pre, post, h⟩
      cases pre with
      | nil => exact ⟨post, by simpa using h⟩
      | cons x xs => simp at h
  | cons a t ih =>
    simp only [listContainsSub, Bool.or_eq_true, listStartsWith_iff, ih]
    constructor
    · rintro (⟨post, h⟩ | ⟨pre, post, h⟩)
      · exact ⟨[], post, by simpa using h⟩
      · exact ⟨a :: pre, post, by rw [h]; rfl⟩
    · rintro ⟨pre, post, h⟩
      cases pre with
      | nil => exact Or.inl ⟨post, by simpa using h⟩
      | cons x xs =>
        simp only [List.cons_append, List.cons.injEq] at h
        obtain ⟨rfl, h⟩ := h
        exact Or.inr ⟨xs, post, h⟩

theorem listContainsSub_nil_q (l : List Char) : listContainsSub l [] = true := by
  cases l <;> simp [listContainsSub, listStartsWith]

/-- C8: Listing without a query (or with the empty query, which Python's
`if q:` treats the same) returns all books in insertion order with their
count; listing with a query returns, in insertion order, exactly the books
whose lowercased title or author contains the lowercased query as a
substring, with count equal to the number returned. -/
theorem C8_list_books (s : AppState) :
    (list_books none s = (s.books, s.books.length)) ∧
    (∀ q : String, list_books (some q) s =
      (s.books.filter (matchesQuery (strLower q)),
       (s.books.filter (matchesQuery (strLower q))).length)) ∧
    (∀ (q : String) (b : Book), matchesQuery (strLower q) b = true ↔
      ((∃ pre post,
          (strLower b.title).data = pre ++ ((strLower q).data ++ post)) ∨
       (∃ pre post,
          (strLower b.author).data = pre ++ ((strLower q).data ++ post)))) := by
  refine ⟨rfl, ?_, ?_⟩
  · intro q
    by_cases hq : q = ""
    · subst hq
      have hall : s.books.filter (matchesQuery (strLower "")) = s.books := by
        apply List.filter_eq_self.mpr
        intro b hb
        unfold matchesQuery strContains
        rw [show (strLower "").data = [] from rfl, listContainsSub_nil_q]
        simp
      unfold list_books
      dsimp only
      rw [if_pos rfl, hall]
    · unfold list_books
      dsimp only
      rw [if_neg hq]
  · intro q b
    unfold matchesQuery strContains
    simp [listContainsSub_iff]

/-- C9: In every reachable state the stored book ids are pairwise distinct
and so are the stored order ids; and a successful creation at a reachable
state returns an entity whose id differs from every previously stored id of
that kind (ids model `str(uuid4())` as a fresh-id supply). -/
theorem C9_unique_ids :
    (∀ ops : List Op, IdsNodup (reach ops)) ∧
    (∀ (ops : List Op) (p : BookCreate) (b : Book) (s2 : AppState),
      create_book_ep p (reach ops) = .ok (b, s2) →
      b.id ∉ (reach ops).books.map Book.id) ∧
    (∀ (ops : List Op) (p : OrderCreate) (o : Order) (s2 : AppState),
      create_order_ep p (reach ops) = .ok (o, s2) →
      o.id ∉ (reach ops).orders.map Order.id) := by
  refine ⟨fun ops => (inv_reach ops).2.2, ?_, ?_⟩
  · intro ops p b s2 h hmem
    obtain ⟨_, hbid, _⟩ := create_book_ep_ok p (reach ops) b s2 h
    obtain ⟨a, ha, haid⟩ := List.mem_map.mp hmem
    have := (inv_reach ops).2.1.1 a ha
    omega
  · intro ops p o s2 h hmem
    obtain ⟨_, hoid, _, _⟩ := create_order_ep_ok p (reach ops) o s2 h
    obtain ⟨a, ha, haid⟩ := List.mem_map.mp hmem
    have := (inv_reach ops).2.1.2 a ha
    omega

/-- Closed witness for C9 at a concrete reachable state. -/
theorem C9_unique_ids_witness :
    IdsNodup (reach [Op.createBook ⟨"A", "B", 1⟩]) ∧
    Book.id ⟨1, "C", "D", 2⟩ ∉
      (reach [Op.createBook ⟨"A", "B", 1⟩]).books.map Book.id ∧
    Order.id ⟨1, 0, 2, "E", .pending⟩ ∉
      (reach [Op.createBook ⟨"A", "B", 1⟩]).orders.map Order.id :=
  ⟨C9_unique_ids.1 [Op.createBook ⟨"A", "B", 1⟩],
   C9_unique_ids.2.1 [Op.createBook ⟨"A", "B", 1⟩] ⟨"C", "D", 2⟩
     ⟨1, "C", "D", 2⟩ ⟨[⟨0, "A", "B", 1⟩, ⟨1, "C", "D", 2⟩], [], 2⟩ rfl,
   C9_unique_ids.2.2 [Op.createBook ⟨"A", "B", 1⟩] ⟨0, 2, "E"⟩
     ⟨1, 0, 2, "E", .pending⟩
     ⟨[⟨0, "A", "B", 1⟩], [⟨1, 0, 2, "E", .pending⟩], 2⟩ rfl⟩

/-- C10: A successful confirm changes exactly the confirmed order's status
and its book's stock: the returned records differ from the stored ones only
in those fields, the id counter is unchanged, the stores are the old stores
with only those two entries replaced, and every book or order with a
different id is still stored unchanged. -/
theorem C10_confirm_frame (s : AppState) (oid : Nat) (msg : String)
    (o2 : Order) (b2 : Book) (s2 : AppState)
    (h : confirm_order oid s = .ok ((msg, o2, b2), s2)) :
    ∃ o b, find_order s oid = some o ∧ find_book s o.book_id = some b ∧
      o2 = { o with status := .confirmed } ∧
      b2 = { b with stock := b.stock - o.qty } ∧
      s2.nextId = s.nextId ∧
      s2.books = s.books.map (fun x => if x.id == b.id then b2 else x) ∧
      s2.orders = s.orders.map (fun x => if x.id == o.id then o2 else x) ∧
      (∀ x ∈ s.books, x.id ≠ b.id → x ∈ s2.books) ∧
      (∀ x ∈ s.orders, x.id ≠ o.id → x ∈ s2.orders) := by
  obtain ⟨o, b, ho, hop, hb, hqs, ho2, hb2, hmsg, rfl⟩ :=
    confirm_order_ok oid s msg o2 b2 s2 h
  subst ho2
  subst hb2
  have hbooks : (setOrder (setBook s { b with stock := b.stock - o.qty })
      { o with status := .confirmed }).books =
      s.books.map (fun x =>
        if x.id == b.id then { b with stock := b.stock - o.qty } else x) := rfl
  have horders : (setOrder (setBook s { b with stock := b.stock - o.qty })
      { o with status := .confirmed }).orders =
      s.orders.map (fun x =>
        if x.id == o.id then { o with status := .confirmed } else x) := rfl
  refine ⟨o, b, ho, hb, rfl, rfl, rfl, hbooks, horders, ?_, ?_⟩
  · intro x hx hne
    rw [hbooks]
    exact List.mem_map.mpr ⟨x, hx, by simp [hne]⟩
  · intro x hx hne
    rw [horders]
    exact List.mem_map.mpr ⟨x, hx, by simp [hne]⟩

/-- Closed witness for C10 at a concrete successful confirm. -/
theorem C10_confirm_frame_witness :
    ∃ o b, find_order ⟨[⟨0, "X", "Y", 4⟩], [⟨1, 0, 4, "Z", .pending⟩], 2⟩ 1 =
        some o ∧
      find_book ⟨[⟨0, "X", "Y", 4⟩], [⟨1, 0, 4, "Z", .pending⟩], 2⟩ o.book_id =
        some b ∧
      (⟨1, 0, 4, "Z", .confirmed⟩ : Order) = { o with status := .confirmed } ∧
      (⟨0, "X", "Y", 0⟩ : Book) = { b with stock := b.stock - o.qty } ∧
      (setOrder (setBook ⟨[⟨0, "X", "Y", 4⟩], [⟨1, 0, 4, "Z", .pending⟩], 2⟩
          ⟨0, "X", "Y", 0⟩) ⟨1, 0, 4, "Z", .confirmed⟩).nextId = 2 ∧
      (setOrder (setBook ⟨[⟨0, "X", "Y", 4⟩], [⟨1, 0, 4, "Z", .pending⟩], 2⟩
          ⟨0, "X", "Y", 0⟩) ⟨1, 0, 4, "Z", .confirmed⟩).books =
        [⟨0, "X", "Y", 4⟩].map (fun x =>
          if x.id == b.id then (⟨0, "X", "Y", 0⟩ : Book) else x) ∧
      (setOrder (setBook ⟨[⟨0, "X", "Y", 4⟩], [⟨1, 0, 4, "Z", .pending⟩], 2⟩
          ⟨0, "X", "Y", 0⟩) ⟨1, 0, 4, "Z", .confirmed⟩).orders =
        [⟨1, 0, 4, "Z", .pending⟩].map (fun x =>
          if x.id == o.id then (⟨1, 0, 4, "Z", .confirmed⟩ : Order) else x) ∧
      (∀ x ∈ ([⟨0, "X", "Y", 4⟩] : List Book), x.id ≠ b.id →
        x ∈ (setOrder (setBook ⟨[⟨0, "X", "Y", 4⟩],
            [⟨1, 0, 4, "Z", .pending⟩], 2⟩
          ⟨0, "X", "Y", 0⟩) ⟨1, 0, 4, "Z", .confirmed⟩).books) ∧
      (∀ x ∈ ([⟨1, 0, 4, "Z", .pending⟩] : List Order), x.id ≠ o.id →
        x ∈ (setOrder (setBook ⟨[⟨0, "X", "Y", 4⟩],
            [⟨1, 0, 4, "Z", .pending⟩], 2⟩
          ⟨0, "X", "Y", 0⟩) ⟨1, 0, 4, "Z", .confirmed⟩).orders) :=
  C10_confirm_frame ⟨[⟨0, "X", "Y", 4⟩], [⟨1, 0, 4, "Z", .pending⟩], 2⟩ 1
    "Pesanan berhasil dikonfirmasi" ⟨1, 0, 4, "Z", .confirmed⟩
    ⟨0, "X", "Y", 0⟩
    (setOrder (setBook ⟨[⟨0, "X", "Y", 4⟩], [⟨1, 0, 4, "Z", .pending⟩], 2⟩
        ⟨0, "X", "Y", 0⟩) ⟨1, 0, 4, "Z", .confirmed⟩) rfl

end KatalogBuku
